import Mathlib

/-!
Shallow embedding of the apollo-client core under verification:
the normalized-store write path (`StoreWriter.processSelectionSet`),
the two fragment matchers, and the `QueryManager` orchestration layer,
together with the claims about them.
-/

set_option maxRecDepth 8000

/-- JSON-like result values returned by the transport and written to the store. -/
inductive JValue where
  | null
  | str (s : String)
  | int (n : Int)
  | bool (b : Bool)
  | arr (items : List JValue)
  | obj (fields : List (String × JValue))

mutual

/-- Structural equality on JSON values (stands in for the identity /
deep-equality checks performed in JavaScript). -/
def beqJValue : JValue → JValue → Bool
  | .null, .null => true
  | .str a, .str b => a == b
  | .int a, .int b => a == b
  | .bool a, .bool b => a == b
  | .arr xs, .arr ys => beqJList xs ys
  | .obj fs, .obj gs => beqJFields fs gs
  | _, _ => false

/-- Elementwise equality of JSON arrays. -/
def beqJList : List JValue → List JValue → Bool
  | [], [] => true
  | x :: xs, y :: ys => beqJValue x y && beqJList xs ys
  | _, _ => false

/-- Keyed equality of JSON object field lists. -/
def beqJFields : List (String × JValue) → List (String × JValue) → Bool
  | [], [] => true
  | (k, v) :: fs, (l, w) :: gs => k == l && beqJValue v w && beqJFields fs gs
  | _, _ => false

end

instance : BEq JValue := ⟨beqJValue⟩

/-- Boolean argument of a `@skip` / `@include` directive: a literal or a variable. -/
inductive BoolArg where
  | lit (b : Bool)
  | var (name : String)
deriving DecidableEq, Repr

/-- A directive attached to a selection, e.g. `@skip(if: $x)`, `@defer`, `@client`. -/
structure Directive where
  name : String
  ifArg : Option BoolArg
deriving DecidableEq, Repr

/-- GraphQL selection AST as used by the write path: fields (with alias,
arguments, directives and an optional sub-selection), inline fragments and
named fragment spreads. -/
inductive Selection where
  | field (alias0 : Option String) (name : String)
      (args : List (String × JValue)) (directives : List Directive)
      (subsel : Option (List Selection))
  | inlineFragment (typeCond : Option String) (directives : List Directive)
      (sel : List Selection)
  | fragmentSpread (name : String) (directives : List Directive)

abbrev SelectionSet := List Selection

/-- Equality of field argument lists. -/
def beqArgs (a b : List (String × JValue)) : Bool :=
  beqJFields a b

mutual

/-- Structural equality on selections (stands in for the reference identity
used by the JavaScript `Set` / `indexOf` bookkeeping). -/
def beqSelection : Selection → Selection → Bool
  | .field a1 n1 ar1 d1 s1, .field a2 n2 ar2 d2 s2 =>
      a1 == a2 && n1 == n2 && beqArgs ar1 ar2 && d1 == d2 && beqOptSels s1 s2
  | .inlineFragment t1 d1 s1, .inlineFragment t2 d2 s2 =>
      t1 == t2 && d1 == d2 && beqSels s1 s2
  | .fragmentSpread n1 d1, .fragmentSpread n2 d2 => n1 == n2 && d1 == d2
  | _, _ => false

/-- Elementwise equality of selection lists. -/
def beqSels : List Selection → List Selection → Bool
  | [], [] => true
  | x :: xs, y :: ys => beqSelection x y && beqSels xs ys
  | _, _ => false

/-- Equality of optional sub-selections. -/
def beqOptSels : Option (List Selection) → Option (List Selection) → Bool
  | none, none => true
  | some xs, some ys => beqSels xs ys
  | _, _ => false

end

instance : BEq Selection := ⟨beqSelection⟩

/-- A named fragment definition from the document's fragment map. -/
structure FragmentDef where
  name : String
  typeCondition : String
  selectionSet : SelectionSet

abbrev FragmentMap := List (String × FragmentDef)

/-- What `getFragmentFromSelection` yields: a fragment-like value with an
optional type condition and a selection set (inline fragments may omit the
type condition; named fragments always carry one). -/
structure FragmentLike where
  typeCondition : Option String
  selectionSet : SelectionSet

/-- Directives carried by a selection. -/
def selectionDirectives : Selection → List Directive
  | .field _ _ _ ds _ => ds
  | .inlineFragment _ ds _ => ds
  | .fragmentSpread _ ds => ds

/-- Response key of a field: its alias when present, else its name. -/
def resultKeyOf : Selection → String
  | .field (some a) _ _ _ _ => a
  | .field none n _ _ _ => n
  | _ => ""

abbrev Variables := List (String × JValue)

/-- JavaScript truthiness of a JSON value. -/
def jsTruthy : JValue → Bool
  | .null => false
  | .str s => s ≠ ""
  | .int n => n ≠ 0
  | .bool b => b
  | .arr _ => true
  | .obj _ => true

/-- Look a key up in a JSON object; `none` when the value is not an object
or the key is absent (the field access yields `undefined`). -/
def jlookupObj (v : JValue) (key : String) : Option JValue :=
  match v with
  | .obj fields => fields.lookup key
  | _ => none

/-- Modelled from the spec: `shouldInclude` (utilities/graphql/directives is
not under src); per spec §4.2 selections are filtered by their `@skip` /
`@include` directives, resolving `if:` arguments against the variables. -/
def evalBoolArg (vars : Variables) : Option BoolArg → Bool
  | some (.lit b) => b
  | some (.var x) =>
      match vars.lookup x with
      | some v => jsTruthy v
      | none => false
  | none => true

/-- Modelled from the spec: a selection is included unless a `@skip` directive
evaluates to true or an `@include` directive evaluates to false. -/
def shouldInclude (sel : Selection) (vars : Variables) : Bool :=
  (selectionDirectives sel).all fun d =>
    if d.name = "skip" then !(evalBoolArg vars d.ifArg)
    else if d.name = "include" then evalBoolArg vars d.ifArg
    else true

/-- Modelled from the spec: `hasDirectives` (utilities/graphql/directives is
not under src); checks whether any directive with one of the given names is
attached to the selection. -/
def hasDirectives (names : List String) (sel : Selection) : Bool :=
  names.any fun n => (selectionDirectives sel).any fun d => d.name = n

/-- Modelled from the spec: `getFragmentFromSelection`
(utilities/graphql/fragments is not under src); an inline fragment is its own
fragment-like value, a spread is resolved through the fragment map. -/
def getFragmentFromSelection (sel : Selection) (fragmentMap : FragmentMap) :
    Option FragmentLike :=
  match sel with
  | .inlineFragment tc _ ss => some ⟨tc, ss⟩
  | .fragmentSpread n _ =>
      match fragmentMap.lookup n with
      | some fd => some ⟨some fd.typeCondition, fd.selectionSet⟩
      | none => none
  | .field _ _ _ _ _ => none

/-- Modelled from the spec: `getTypenameFromResult`
(utilities/graphql/storeUtils is not under src); reads the `__typename`
property of the result object when it is a string. -/
def getTypenameFromResult (result : JValue) : Option String :=
  match jlookupObj result "__typename" with
  | some (.str s) => some s
  | _ => none

/-- JavaScript `||` on optional strings: the first string that is truthy
(non-empty) wins. -/
def jsStrOr (a b : Option String) : Option String :=
  match a with
  | some s => if s ≠ "" then some s else b
  | none => b

/-!
## Normalized entity store and store values (data/inMemoryCache write path)
-/

/-- A value stored in a `StoreObject` field: a scalar (JSON value), a
`Reference` to another entity, a list, an inlined identity-less object, or a
`FieldValueToBeMerged` wrapper deferring a custom merge function. -/
inductive StoreValue where
  | scalar (v : JValue)
  | ref (dataId : String)
  | list (items : List StoreValue)
  | object (fields : List (String × StoreValue))
  | toBeMerged (field : Selection) (typename : Option String) (value : StoreValue)

abbrev StoreObject := List (String × StoreValue)

/-- The entity store: a mapping from dataId to `StoreObject`, plus the
retained root-id counts maintained by `retain`. -/
structure EntityStoreM where
  data : List (String × StoreObject)
  rootIds : List (String × Nat)

/-- Replace (or insert) the binding of a key in an association list. -/
def setAssoc {α : Type} (l : List (String × α)) (k : String) (v : α) :
    List (String × α) :=
  match l with
  | [] => [(k, v)]
  | (k', v') :: rest =>
      if k' = k then (k, v) :: rest else (k', v') :: setAssoc rest k v

mutual

/-- Modelled from the spec: the deep-merge law (`mergeDeep` /
`makeProcessedFieldsMerger`, whose sources are not under src; its unit tests
are src/unnamed/part_001): plain objects merge recursively per key, any other
incoming value overwrites the existing one. -/
def mergeStoreValue : StoreValue → StoreValue → StoreValue
  | .object a, .object b => .object (mergeStoreObjects a b)
  | _, incoming => incoming

/-- Merge each incoming field into the existing field list, recursing into
values that are objects on both sides. -/
def mergeStoreObjects (existing : StoreObject) : StoreObject → StoreObject
  | [] => existing
  | (k, v) :: rest =>
      let merged :=
        match existing.lookup k with
        | some old => setAssoc existing k (mergeStoreValue old v)
        | none => existing ++ [(k, v)]
      mergeStoreObjects merged rest

end

/-- Modelled from the spec: `EntityStore.merge(dataId, incomingFields)`
(data/entityStore is not under src); deep-merges the incoming fields into the
existing `StoreObject` for that id (spec §4.1). -/
def storeMergeObj (store : EntityStoreM) (dataId : String) (fields : StoreObject) :
    EntityStoreM :=
  match store.data.lookup dataId with
  | some old => { store with data := setAssoc store.data dataId (mergeStoreObjects old fields) }
  | none => { store with data := setAssoc store.data dataId fields }

/-- Modelled from the spec: `EntityStore.get(dataId, fieldName)` (spec §4.1). -/
def storeGetField (store : EntityStoreM) (dataId : Option String)
    (fieldName : String) : Option StoreValue :=
  match dataId with
  | none => none
  | some d =>
      match store.data.lookup d with
      | some obj => obj.lookup fieldName
      | none => none

/-- `store.get(dataId, "__typename") as string`: only a stored string counts. -/
def storeGetString (store : EntityStoreM) (dataId : Option String)
    (fieldName : String) : Option String :=
  match storeGetField store dataId fieldName with
  | some (.scalar (.str s)) => some s
  | _ => none

/-- Modelled from the spec: `EntityStore.retain(dataId)` bumps the root-id
retain count (spec §4.1). -/
def storeRetain (store : EntityStoreM) (dataId : String) : EntityStoreM :=
  match store.rootIds.lookup dataId with
  | some n => { store with rootIds := setAssoc store.rootIds dataId (n + 1) }
  | none => { store with rootIds := setAssoc store.rootIds dataId 1 }

/-!
## StoreWriter (src/unnamed/part_002 lines 59-280)
-/

/-- The mutable write context threaded through `processSelectionSet`:
the store, the `written` bookkeeping of (dataId, selection set) pairs already
processed in this pass, the fragment map and the variables. -/
structure WriteContext where
  store : EntityStoreM
  written : List (String × List SelectionSet)
  fragmentMap : FragmentMap
  vars : Variables

/-- The pluggable cache policies consulted by the writer
(`policies.identify`, `getStoreFieldName`, `hasMergeFunction`,
`fragmentMatches`, `applyMerges`, `usingPossibleTypes`, `rootTypenamesById`);
the `Policies` implementation itself is injected configuration. -/
structure Policies where
  rootTypenamesById : String → Option String
  identify : JValue → SelectionSet → FragmentMap → Option String
  getStoreFieldName : Option String → Selection → Variables → String
  hasMergeFunction : Option String → String → Bool
  fragmentMatches : FragmentLike → Option String → Bool
  applyMerges : StoreValue → StoreObject → WriteContext → StoreObject
  usingPossibleTypes : Bool

/-- The selection sets already written for a dataId in this pass
(`context.written[dataId] || []`). -/
def writtenSets (written : List (String × List SelectionSet)) (dataId : String) :
    List SelectionSet :=
  match written.lookup dataId with
  | some sets => sets
  | none => []

/-- `sets.push(selectionSet)` on the `written` table. -/
def writtenPush (written : List (String × List SelectionSet)) (dataId : String)
    (ss : SelectionSet) : List (String × List SelectionSet) :=
  setAssoc written dataId (writtenSets written dataId ++ [ss])

/-- Membership of a selection set in a list, by structural equality
(the JavaScript code uses `indexOf` on node identity). -/
def selsMember (sets : List SelectionSet) (ss : SelectionSet) : Bool :=
  sets.any fun s => beqSels s ss

/-- `new Set(selections)`: deduplicate, keeping first occurrences in order. -/
def dedupSels (l : List Selection) : List Selection :=
  l.foldl (fun acc s => if acc.contains s then acc else acc ++ [s]) []

/-- Fold the selections of a matched fragment into the work set: each
selection not yet seen is appended to both the pending work list and the
seen set (JavaScript `Set.prototype.add` during `forEach`). -/
def addFragmentSels (sels : List Selection) (work seen : List Selection) :
    List Selection × List Selection :=
  sels.foldl
    (fun ws s => if ws.2.contains s then ws else (ws.1 ++ [s], ws.2 ++ [s]))
    (work, seen)

/-- Errors the write path can raise: the `InvariantError` thrown on a missing
field, a missing named fragment, or fuel exhaustion of the embedding. -/
inductive WriteError where
  | invariant (msg : String)
  | outOfFuel
deriving DecidableEq


mutual

/-- `StoreWriter.processSelectionSet` (src/unnamed/part_002 lines 132-253),
fueled so the embedding is total: resolve the dataId via `policies.identify`
when not supplied; if the (dataId, selection set) pair was already written in
this pass, return a `Reference` immediately; otherwise record the pair and
process the selection set. -/
def processSelectionSet (p : Policies) (fuel : Nat) (dataId0 : Option String)
    (result : JValue) (selectionSet : SelectionSet) (typename0 : Option String)
    (ctx : WriteContext) (out : Bool) :
    Except WriteError (StoreValue × WriteContext × Bool) :=
  match fuel with
  | 0 => .error .outOfFuel
  | fuel + 1 =>
    let dataId : Option String :=
      match dataId0 with
      | some d => some d
      | none => p.identify result selectionSet ctx.fragmentMap
    match dataId with
    | some d =>
        if selsMember (writtenSets ctx.written d) selectionSet then
          .ok (.ref d, ctx, out)
        else
          let ctx1 := { ctx with written := writtenPush ctx.written d selectionSet }
          processAfterGuard p fuel (some d) result selectionSet typename0 ctx1 out
    | none => processAfterGuard p fuel none result selectionSet typename0 ctx out

/-- The tail of `processSelectionSet` after the written-pair guard: infer the
typename, seed `mergedFields` with it, run the work-set loop over the
selections, then apply deferred merges and merge the entity into the store
when a dataId is known (returning a `Reference`), else return the inlined
`StoreObject`. -/
def processAfterGuard (p : Policies) (fuel : Nat) (dataId : Option String)
    (result : JValue) (selectionSet : SelectionSet) (typename0 : Option String)
    (ctx : WriteContext) (out : Bool) :
    Except WriteError (StoreValue × WriteContext × Bool) :=
  match fuel with
  | 0 => .error .outOfFuel
  | fuel + 1 =>
    let typename := jsStrOr typename0
      (jsStrOr (getTypenameFromResult result)
        (storeGetString ctx.store dataId "__typename"))
    let mergedFields : StoreObject :=
      match typename with
      | some t => [("__typename", StoreValue.scalar (JValue.str t))]
      | none => []
    match processWorkList p fuel result typename (dedupSels selectionSet)
        (dedupSels selectionSet) ctx out mergedFields with
    | .error e => .error e
    | .ok (mergedFields1, ctx1, out1) =>
        match dataId with
        | some d =>
            let entityRef := StoreValue.ref d
            let finalFields :=
              if out1 then p.applyMerges entityRef mergedFields1 ctx1
              else mergedFields1
            let ctx2 := { ctx1 with store := storeMergeObj ctx1.store d finalFields }
            .ok (entityRef, ctx2, out1)
        | none => .ok (.object mergedFields1, ctx1, out1)

/-- The `workSet.forEach` loop of `processSelectionSet`: skip selections
excluded by `@skip` / `@include`; for a field present in the result, process
its value (wrapping it as `FieldValueToBeMerged` when a custom merge function
is declared) and merge it into `mergedFields` under its storage field name;
for a field absent from the result, throw the missing-field `InvariantError`
when `policies.usingPossibleTypes` holds and no `@defer` / `@client`
directive explains the absence, else skip it silently; for a fragment,
fold the matching fragment selections into the work set. -/
def processWorkList (p : Policies) (fuel : Nat) (result : JValue)
    (typename : Option String) (worklist seen : List Selection)
    (ctx : WriteContext) (out : Bool) (mergedFields : StoreObject) :
    Except WriteError (StoreObject × WriteContext × Bool) :=
  match fuel with
  | 0 => .error .outOfFuel
  | fuel + 1 =>
    match worklist with
    | [] => .ok (mergedFields, ctx, out)
    | sel :: rest =>
        if !(shouldInclude sel ctx.vars) then
          processWorkList p fuel result typename rest seen ctx out mergedFields
        else
          match sel with
          | Selection.field alias0 name args directives subsel =>
              let fld := Selection.field alias0 name args directives subsel
              let resultFieldKey := resultKeyOf fld
              match jlookupObj result resultFieldKey with
              | some value =>
                  let storeFieldName := p.getStoreFieldName typename fld ctx.vars
                  match processFieldValue p fuel value fld subsel ctx out with
                  | .error e => .error e
                  | .ok (incomingValue0, ctx1, out1) =>
                      let wrapped :=
                        if p.hasMergeFunction typename name then
                          (StoreValue.toBeMerged fld typename incomingValue0, true)
                        else (incomingValue0, out1)
                      let mergedFields1 :=
                        mergeStoreObjects mergedFields [(storeFieldName, wrapped.1)]
                      processWorkList p fuel result typename rest seen ctx1
                        wrapped.2 mergedFields1
              | none =>
                  if p.usingPossibleTypes && !(hasDirectives ["defer", "client"] fld) then
                    .error (.invariant ("Missing field " ++ resultFieldKey))
                  else
                    processWorkList p fuel result typename rest seen ctx out mergedFields
          | frag =>
              match getFragmentFromSelection frag ctx.fragmentMap with
              | none => .error (.invariant "fragment not found in fragment map")
              | some fragment =>
                  if p.fragmentMatches fragment typename then
                    let ws := addFragmentSels fragment.selectionSet rest seen
                    processWorkList p fuel result typename ws.1 ws.2 ctx out mergedFields
                  else
                    processWorkList p fuel result typename rest seen ctx out mergedFields

/-- `StoreWriter.processFieldValue` (src/unnamed/part_002 lines 255-279):
a field without sub-selection or a null value is stored as a scalar, an array
is processed elementwise, and a nested object is processed through
`processSelectionSet` with no dataId. -/
def processFieldValue (p : Policies) (fuel : Nat) (value : JValue)
    (field : Selection) (subsel : Option (List Selection))
    (ctx : WriteContext) (out : Bool) :
    Except WriteError (StoreValue × WriteContext × Bool) :=
  match fuel with
  | 0 => .error .outOfFuel
  | fuel + 1 =>
    match subsel with
    | none => .ok (.scalar value, ctx, out)
    | some ss =>
        match value with
        | JValue.null => .ok (.scalar JValue.null, ctx, out)
        | JValue.arr items =>
            match processFieldItems p fuel items field ss ctx out with
            | .error e => .error e
            | .ok (vals, ctx1, out1) => .ok (.list vals, ctx1, out1)
        | v => processSelectionSet p fuel none v ss none ctx out

/-- `value.map(item => processFieldValue(item, ...))`: process the items of an
array-valued field in order, threading the write context. -/
def processFieldItems (p : Policies) (fuel : Nat) (items : List JValue)
    (field : Selection) (ss : List Selection) (ctx : WriteContext) (out : Bool) :
    Except WriteError (List StoreValue × WriteContext × Bool) :=
  match fuel with
  | 0 => .error .outOfFuel
  | fuel + 1 =>
    match items with
    | [] => .ok ([], ctx, out)
    | item :: rest =>
        match processFieldValue p fuel item field (some ss) ctx out with
        | .error e => .error e
        | .ok (v, ctx1, out1) =>
            match processFieldItems p fuel rest field ss ctx1 out1 with
            | .error e => .error e
            | .ok (vs, ctx2, out2) => .ok (v :: vs, ctx2, out2)

end

/-- `StoreWriter.writeQueryToStore` (src/unnamed/part_002 lines 78-130):
retain the root dataId, then process the operation's selection set at that id
with a fresh `written` table, the document's fragment map and the variables;
returns the updated store. -/
def writeQueryToStore (p : Policies) (fuel : Nat) (query : SelectionSet)
    (fragmentMap : FragmentMap) (result : JValue) (dataId : String)
    (store : EntityStoreM) (vars : Variables) :
    Except WriteError EntityStoreM :=
  let store1 := storeRetain store dataId
  let ctx : WriteContext :=
    { store := store1, written := [], fragmentMap := fragmentMap, vars := vars }
  match processSelectionSet p fuel (some dataId) result query
      (p.rootTypenamesById dataId) ctx false with
  | .error e => .error e
  | .ok (_, ctx1, _) => .ok ctx1.store

/-!
## Fragment matchers (src/unnamed/part_002 lines 292-448)
-/

/-- The id value handed to a fragment matcher: carries the dataId to look up. -/
structure IdValue where
  id : String

/-- The read context threaded through the matchers: the flat store (dataId to
stored object) and the `returnPartialData` flag the heuristic matcher may set. -/
structure ReadStoreContext where
  store : List (String × List (String × JValue))
  returnPartialData : Bool

/-- `HeuristicFragmentMatcher.match` (src/unnamed/part_002 lines 404-447):
a missing store entry never matches; a missing (falsy) `__typename` matches
while marking the read partial; with a discriminator present, an exact match
leaves the context alone and a mismatch still matches but marks the read
partial. Returns the boolean result together with the updated context. -/
def heuristicMatch (idValue : IdValue) (typeCondition : String)
    (context : ReadStoreContext) : Bool × ReadStoreContext :=
  match context.store.lookup idValue.id with
  | none => (false, context)
  | some obj =>
      match obj.lookup "__typename" with
      | none => (true, { context with returnPartialData := true })
      | some tv =>
          if !(jsTruthy tv) then (true, { context with returnPartialData := true })
          else
            match tv with
            | .str tn =>
                if tn = typeCondition then (true, context)
                else (true, { context with returnPartialData := true })
            | _ => (true, { context with returnPartialData := true })

/-- `IntrospectionFragmentMatcher`: readiness flag and the abstract-type to
concrete-types map parsed from the introspection result. -/
structure IntrospectionFragmentMatcher where
  isReady : Bool
  possibleTypesMap : List (String × List String)

/-- `IntrospectionFragmentMatcher.match` (src/unnamed/part_002 lines 351-379):
throws when used before `init`; a missing store entry returns false; a missing
`__typename` throws; otherwise matches on exact type equality or membership of
the stored typename in the type condition's possible types. -/
def introspectionMatch (m : IntrospectionFragmentMatcher) (idValue : IdValue)
    (typeCondition : String) (context : ReadStoreContext) :
    Except String Bool :=
  if !m.isReady then
    .error "FragmentMatcher.match was called before FragmentMatcher.init"
  else
    match context.store.lookup idValue.id with
    | none => .ok false
    | some obj =>
        match obj.lookup "__typename" with
        | none => .error "Cannot match fragment because __typename property is missing"
        | some tv =>
            if !(jsTruthy tv) then
              .error "Cannot match fragment because __typename property is missing"
            else
              match tv with
              | .str tn =>
                  if tn = typeCondition then .ok true
                  else
                    match m.possibleTypesMap.lookup typeCondition with
                    | some implementingTypes => .ok (implementingTypes.contains tn)
                    | none => .ok false
              | _ =>
                  match m.possibleTypesMap.lookup typeCondition with
                  | some _ => .ok false
                  | none => .ok false

/-!
## QueryManager (src/unnamed/part_002 lines 553-1093)
-/

/-- A query operation definition: optional operation name and its selection
set. -/
structure OpDef where
  opName : Option String
  selectionSet : SelectionSet

/-- A parsed query document: its (optional) query operation definition and
its named fragment definitions. -/
structure Document where
  queryDef : Option OpDef
  fragmentDefs : List FragmentDef

/-- Modelled from the spec: `getQueryDefinition` (queries/getFromAST is not
under src); extracts the document's query operation definition, failing on a
document without one. -/
def getQueryDefinition (doc : Document) : Except String OpDef :=
  match doc.queryDef with
  | some qd => .ok qd
  | none => .error "document must contain a query operation definition"

/-- Modelled from the spec: `createFragmentMap` (queries/getFromAST is not
under src); indexes the fragment definitions by name. -/
def createFragmentMap (fds : List FragmentDef) : FragmentMap :=
  fds.map fun f => (f.name, f)

/-- A selection set anchored at a root id (`SelectionSetWithRoot`). -/
structure SelectionSetWithRoot where
  id : String
  typeName : String
  selectionSet : SelectionSet

/-- What `diffSelectionSetAgainstStore` returns: the missing selection sets
and the partial result assembled from the store. -/
structure DiffResult where
  missingSelectionSets : List SelectionSetWithRoot
  result : JValue

/-- Per-query bookkeeping record kept in the store-state container
(spec §3 "Query bookkeeping record"): query string, loading flag, latest
request id, variables, last network error, last GraphQL errors, the
`returnPartialData` / `forceFetch` options, and the last delivered result. -/
structure QueryBookkeeping where
  queryString : String
  loading : Bool
  lastRequestId : Nat
  vars : Variables
  networkError : Option String
  graphQLErrors : Option (List String)
  returnPartialData : Bool
  forceFetch : Bool
  lastResult : Option JValue
  complete : Bool

/-- The store-state container's slice owned by the Query Manager: the
normalized `data` portion and the per-query bookkeeping records. -/
structure ApolloState where
  data : List (String × StoreObject)
  queries : List (String × QueryBookkeeping)

/-- Actions the Query Manager dispatches to the store-state container. -/
inductive ApolloAction where
  | queryInit (queryId : String) (requestId : Nat) (queryString : String)
      (minimizedQueryString : Option String) (vars : Variables)
      (forceFetch : Bool) (returnPartialData : Bool)
  | queryResultClient (queryId : String) (result : Option JValue) (complete : Bool)
  | queryResult (queryId : String) (requestId : Nat) (result : JValue)
      (graphQLErrors : Option (List String))
  | queryError (queryId : String) (requestId : Nat) (error : String)
  | queryStop (queryId : String)
  | storeReset

/-- Observable side effects of a Query Manager operation, in order: an action
dispatched to the store-state container, a pending fetch promise rejected, a
network request enqueued through the batcher, a refetch triggered on an
observable query. -/
inductive Effect where
  | dispatch (a : ApolloAction)
  | rejectPromise (handle : Nat) (msg : String)
  | enqueueRequest (queryString : String) (operationName : Option String)
  | refetchQuery (queryId : String)

/-- Remove a key's binding from an association list. -/
def removeAssoc {α : Type} (l : List (String × α)) (k : String) :
    List (String × α) :=
  l.filter fun p => p.1 != k

/-- The Query Manager's own mutable state: the shared id counter, the
fetch-promise table (query id to promise handle), the registered query
listeners, the polling timers, the observable-query registry (query id with
its `noFetch` flag), the fresh-promise counter and the store-state slice. -/
structure QMState where
  idCounter : Nat
  fetchQueryPromises : List (String × Nat)
  queryListeners : List String
  pollingTimers : List String
  observableQueries : List (String × Bool)
  promiseCounter : Nat
  apollo : ApolloState

/-- `QueryManager.generateQueryId` (src/unnamed/part_002 lines 807-811):
returns the current counter as a string and increments it. -/
def generateQueryId (st : QMState) : String × QMState :=
  (toString st.idCounter, { st with idCounter := st.idCounter + 1 })

/-- `QueryManager.generateRequestId` (src/unnamed/part_002 lines 1088-1092):
returns the current counter and increments it. -/
def generateRequestId (st : QMState) : Nat × QMState :=
  (st.idCounter, { st with idCounter := st.idCounter + 1 })

/-- A step of the id-issuing trace: either a query id or a request id is
generated from the shared counter. -/
inductive IdOp where
  | genQuery
  | genRequest

/-- Run a trace of id-generation steps, collecting the request ids issued. -/
def runIdOps (st : QMState) : List IdOp → List Nat × QMState
  | [] => ([], st)
  | IdOp.genQuery :: rest => runIdOps (generateQueryId st).2 rest
  | IdOp.genRequest :: rest =>
      let r := generateRequestId st
      let rs := runIdOps r.2 rest
      (r.1 :: rs.1, rs.2)

/-- Modelled from the spec: the store-state reducer (store.ts /
queries/store.ts is not under src). Per spec §3 and §4.5: an init dispatch
creates/overwrites the bookkeeping record with loading set and the latest
request id; a result whose request id is not the latest issued for that query
id is discarded; an accepted error-free result is written into the data
portion (the `writeResult` parameter stands for the external Store Writer)
and recorded, while a response carrying GraphQL errors only records them
(spec §7: a failed fetch never mutates previously-cached data);
an error updates the bookkeeping with the error and leaves the data portion
untouched; a stop removes the record; a store reset clears everything. -/
def apolloReducer
    (writeResult : List (String × StoreObject) → JValue → List (String × StoreObject))
    (st : ApolloState) (a : ApolloAction) : ApolloState :=
  match a with
  | .queryInit qid rid qs _mqs vars ff rpd =>
      let bk : QueryBookkeeping :=
        { queryString := qs, loading := true, lastRequestId := rid,
          vars := vars, networkError := none, graphQLErrors := none,
          returnPartialData := rpd, forceFetch := ff,
          lastResult := none, complete := false }
      { st with queries := setAssoc st.queries qid bk }
  | .queryResultClient qid result complete =>
      match st.queries.lookup qid with
      | some bk =>
          let bk1 := { bk with lastResult := result, complete := complete, loading := !complete }
          { st with queries := setAssoc st.queries qid bk1 }
      | none => st
  | .queryResult qid rid result gqlErrors =>
      match st.queries.lookup qid with
      | some bk =>
          if bk.lastRequestId = rid then
            let bk1 := { bk with loading := false, networkError := none, graphQLErrors := gqlErrors, lastResult := some result }
            { data :=
                match gqlErrors with
                | some _ => st.data
                | none => writeResult st.data result,
              queries := setAssoc st.queries qid bk1 }
          else st
      | none => st
  | .queryError qid rid err =>
      match st.queries.lookup qid with
      | some bk =>
          if bk.lastRequestId = rid then
            let bk1 := { bk with loading := false, networkError := some err }
            { st with queries := setAssoc st.queries qid bk1 }
          else st
      | none => st
  | .queryStop qid => { st with queries := removeAssoc st.queries qid }
  | .storeReset => { data := [], queries := [] }

/-- Options accepted by `watchQuery` / `query` / `fetchQuery`
(`WatchQueryOptions`, src/unnamed/part_002 lines 543-549). -/
structure WatchQueryOptions where
  query : Document
  vars : Variables := []
  forceFetch : Bool := false
  returnPartialData : Bool := false
  pollInterval : Option Nat := none

/-- External collaborators of the Query Manager, injected as functions: the
document printer, the differ (`diffSelectionSetAgainstStore`), the minimized
document synthesizer (`queryDocument`) and the optional query transformer;
all are imported modules whose sources are not under src. -/
structure QMConfig where
  printDoc : Document → String
  diff : SelectionSet → List (String × StoreObject) → Variables → FragmentMap →
    String → DiffResult
  queryDocument : List SelectionSetWithRoot → OpDef → FragmentMap → Document
  queryTransformer : Option (OpDef → OpDef)

/-- Apply the configured query transformer, if any. -/
def qmTransform (cfg : QMConfig) (qd : OpDef) : OpDef :=
  match cfg.queryTransformer with
  | some tr => tr qd
  | none => qd

/-- How the synchronous part of `fetchQueryOverInterface` leaves the caller's
promise: immediately resolved with the client-side result, or pending on a
network request identified by its request id and promise-table handle. -/
inductive FetchOutcome where
  | resolvedData (d : Option JValue)
  | pendingRequest (requestId : Nat) (promiseHandle : Nat)

/-- `QueryManager.fetchQueryOverInterface` (src/unnamed/part_002 lines
832-1005), synchronous part: transform and print the query; unless
`forceFetch`, diff it against the store and, when selection sets are missing,
synthesize the minimized query; generate a request id; dispatch
`APOLLO_QUERY_INIT`; when there is no minimized query (nothing missing) or
`returnPartialData` is set, dispatch `APOLLO_QUERY_RESULT_CLIENT` with the
diff's partial result; when a minimized query exists, register the fetch
promise and enqueue the network request, else resolve immediately with the
cached result. -/
def fetchQueryOverInterface (cfg : QMConfig) (st : QMState) (queryId : String)
    (options : WatchQueryOptions) :
    Except String (FetchOutcome × QMState × List Effect) :=
  match getQueryDefinition options.query with
  | .error e => .error e
  | .ok queryDef0 =>
    let queryDef := qmTransform cfg queryDef0
    let transformedQuery : Document :=
      { queryDef := some queryDef, fragmentDefs := options.query.fragmentDefs }
    let queryString := cfg.printDoc transformedQuery
    let queryFragmentMap := createFragmentMap transformedQuery.fragmentDefs
    let querySS : SelectionSetWithRoot :=
      { id := "ROOT_QUERY", typeName := "Query", selectionSet := queryDef.selectionSet }
    let minimizedAndInitial :
        Except String ((Option (SelectionSetWithRoot × String × Document)) × Option JValue) :=
      if options.forceFetch then
        .ok (some (querySS, queryString, transformedQuery), none)
      else
        let dr := cfg.diff querySS.selectionSet st.apollo.data options.vars
          queryFragmentMap querySS.id
        if dr.missingSelectionSets.isEmpty then
          .ok (none, some dr.result)
        else
          let diffedQuery := cfg.queryDocument dr.missingSelectionSets queryDef
            queryFragmentMap
          match getQueryDefinition diffedQuery with
          | .error e => .error e
          | .ok diffedQueryDef =>
              .ok (some
                ({ id := "ROOT_QUERY", typeName := "Query",
                   selectionSet := diffedQueryDef.selectionSet },
                 cfg.printDoc diffedQuery, diffedQuery), some dr.result)
    match minimizedAndInitial with
    | .error e => .error e
    | .ok (minimized, initialResult) =>
      let rid := generateRequestId st
      let requestId := rid.1
      let st1 := rid.2
      let initEffects : List Effect :=
        [Effect.dispatch (ApolloAction.queryInit queryId requestId queryString
          (minimized.map fun m => m.2.1) options.vars options.forceFetch
          options.returnPartialData)]
      let clientEffects : List Effect :=
        if minimized.isNone || options.returnPartialData then
          [Effect.dispatch (ApolloAction.queryResultClient queryId initialResult
            minimized.isSome)]
        else []
      match minimized with
      | some m =>
          let handle := st1.promiseCounter
          let st2 := { st1 with
            promiseCounter := st1.promiseCounter + 1,
            fetchQueryPromises := setAssoc st1.fetchQueryPromises queryId handle }
          let opName :=
            match m.2.2.queryDef with
            | some qd => qd.opName
            | none => none
          .ok (.pendingRequest requestId handle, st2,
            initEffects ++ clientEffects ++ [Effect.enqueueRequest m.2.1 opName])
      | none =>
          .ok (.resolvedData initialResult, st1, initEffects ++ clientEffects)

/-- The `.catch` continuation of the fetch promise chain
(src/unnamed/part_002 lines 986-996): dispatch `APOLLO_QUERY_ERROR` with the
error and the request id, and remove the query's entry from the
fetch-promise table. No other action is dispatched on the error path. -/
def fetchErrorPath (st : QMState) (queryId : String) (requestId : Nat)
    (error : String) : QMState × List Effect :=
  ({ st with fetchQueryPromises := removeAssoc st.fetchQueryPromises queryId },
   [Effect.dispatch (ApolloAction.queryError queryId requestId error)])

/-- The message carried by the store-reset rejection error. -/
def storeResetErrorMessage : String := "Store reset while query was in flight."

/-- `QueryManager.resetStore` (src/unnamed/part_002 lines 1020-1041): reject
every promise currently in the fetch-promise table, stop every query that is
being listened to (dispatching `APOLLO_QUERY_STOP` and clearing its polling
timer), then dispatch `APOLLO_STORE_RESET`. -/
def resetStore (st : QMState) : QMState × List Effect :=
  let rejections := st.fetchQueryPromises.map fun kp =>
    Effect.rejectPromise kp.2 storeResetErrorMessage
  let stops := st.queryListeners.map fun qid =>
    Effect.dispatch (ApolloAction.queryStop qid)
  ({ st with
      queryListeners := [],
      pollingTimers := st.pollingTimers.filter fun q => !(st.queryListeners.contains q) },
   rejections ++ stops ++ [Effect.dispatch ApolloAction.storeReset])

/-- Modelled from the spec: the store-reset refetch behavior of spec §4.5
(2)-(4). The `QueryManager` variant holding an `observableQueries` registry
with per-query `noFetch` options is exercised by the tests in
src/unnamed/part_000 (`addObservableQuery`, `options.noFetch`) but its source
is not under src. Per the spec: reject every outstanding fetch promise with
the store-reset error, clear the store, then trigger a refetch for every
registered observable query except the `noFetch` (cache-only) ones, which are
left untouched; the set of promises and queries is taken from the pre-reset
state. -/
def resetStoreWithRefetch (st : QMState) : QMState × List Effect :=
  let rejections := st.fetchQueryPromises.map fun kp =>
    Effect.rejectPromise kp.2 storeResetErrorMessage
  let refetches := (st.observableQueries.filter fun oq => !oq.2).map fun oq =>
    Effect.refetchQuery oq.1
  ({ st with apollo := { data := [], queries := [] } },
   rejections ++ [Effect.dispatch ApolloAction.storeReset] ++ refetches)

/-- Errors raised synchronously by the public query entry points. -/
inductive QMError where
  | usageError (msg : String)
  | docError (msg : String)
deriving DecidableEq

/-- What `watchQuery` constructs before any subscription: an observable
holding the options. -/
structure ObservableQueryRepr where
  options : WatchQueryOptions

/-- `QueryManager.watchQuery` (src/unnamed/part_002 lines 721-793),
synchronous part: validate the document (`getQueryDefinition` is called just
to surface errors synchronously) and build the observable. -/
def watchQuery (options : WatchQueryOptions) :
    Except QMError ObservableQueryRepr :=
  match getQueryDefinition options.query with
  | .error e => .error (.docError e)
  | .ok _ => .ok { options := options }

/-- `QueryManager.query` (src/unnamed/part_002 lines 795-801): throw a usage
error when `returnPartialData` is requested, else watch the query and return
its first-result promise. -/
def qmQuery (options : WatchQueryOptions) :
    Except QMError ObservableQueryRepr :=
  if options.returnPartialData then
    .error (.usageError "returnPartialData option only supported on watchQuery.")
  else watchQuery options

/-- A result delivered to an observer: data and/or GraphQL errors. -/
structure GraphQLResultM where
  data : Option JValue
  errors : Option (List String)

/-- What the query listener does to its observer on one broadcast. -/
inductive ObserverStep where
  | next (r : GraphQLResultM)
  | errorCall (e : String)
  | skip

/-- The query listener built inside `watchQuery` (src/unnamed/part_002 lines
726-757): when the query is not loading (or partial data is allowed), GraphQL
errors are delivered via `next`, a network error is delivered via
`observer.error`, and otherwise the result read from the store
(`readResult` stands for the external `readSelectionSetFromStore`) is
delivered via `next`; while still loading nothing is delivered. -/
def watchQueryListener (readResult : Option JValue) (qsv : QueryBookkeeping) :
    ObserverStep :=
  if !qsv.loading || qsv.returnPartialData then
    match qsv.graphQLErrors with
    | some errs => .next { data := none, errors := some errs }
    | none =>
        match qsv.networkError with
        | some e => .errorCall e
        | none => .next { data := readResult, errors := none }
  else .skip

/-- `ObservableQuery.result` (src/unnamed/part_002 lines 520-535): the promise
resolves with the first `next` emission and rejects with the first
`observer.error` call. -/
def resultPromiseOutcome : List ObserverStep → Option (Except String GraphQLResultM)
  | [] => none
  | ObserverStep.next r :: _ => some (.ok r)
  | ObserverStep.errorCall e :: _ => some (.error e)
  | ObserverStep.skip :: rest => resultPromiseOutcome rest

/-!
## Helper lemmas
-/

/-- Looking up the key just set by `setAssoc` yields the new value. -/
theorem lookup_setAssoc_self {α : Type} (l : List (String × α)) (k : String)
    (v : α) : (setAssoc l k v).lookup k = some v := by
  induction l with
  | nil => simp [setAssoc]
  | cons p rest ih =>
      by_cases h : p.1 = k
      · simp [setAssoc, h]
      · have hne : (k == p.1) = false := by
          simp only [beq_eq_false_iff_ne, ne_eq]
          exact fun e => h e.symm
        simp [setAssoc, h, List.lookup, hne, ih]

/-- In a list of pairs with nodup keys, a key determines its value. -/
theorem keysNodup_unique {α : Type} (l : List (String × α))
    (h : (l.map Prod.fst).Nodup) (k : String) (a b : α)
    (ha : (k, a) ∈ l) (hb : (k, b) ∈ l) : a = b := by
  induction l with
  | nil => cases ha
  | cons p rest ih =>
      have hnd := h
      simp only [List.map_cons, List.nodup_cons] at hnd
      rcases List.mem_cons.mp ha with h1 | h1
      · rcases List.mem_cons.mp hb with h2 | h2
        · rw [← h1] at h2; exact (congrArg Prod.snd h2).symm
        · exfalso
          apply hnd.1
          have : k ∈ rest.map Prod.fst := List.mem_map_of_mem Prod.fst h2
          simpa [← h1] using this
      · rcases List.mem_cons.mp hb with h2 | h2
        · exfalso
          apply hnd.1
          have : k ∈ rest.map Prod.fst := List.mem_map_of_mem Prod.fst h1
          simpa [← h2] using this
        · exact ih hnd.2 h1 h2

/-- Any request id issued along a trace is at least the starting counter. -/
theorem runIdOps_issued_ge (ops : List IdOp) :
    ∀ (st : QMState) (r : Nat), r ∈ (runIdOps st ops).1 → st.idCounter ≤ r := by
  induction ops with
  | nil => intro st r hr; simp [runIdOps] at hr
  | cons op rest ih =>
      intro st r hr
      cases op with
      | genQuery =>
          have := ih (generateQueryId st).2 r (by simpa [runIdOps] using hr)
          simpa [generateQueryId] using Nat.le_of_succ_le this
      | genRequest =>
          simp [runIdOps] at hr
          rcases hr with h | h
          · simp [generateRequestId, h]
          · have := ih (generateRequestId st).2 r h
            simp [generateRequestId] at this
            exact Nat.le_of_succ_le this

/-!
## Sample instances used by the witnesses
-/

/-- A concrete policies instance: identity from `__typename` and `id`,
storage field name = response key, no custom merge functions, heuristic
fragment matching on exact type condition, no possible-types data. -/
def samplePolicies : Policies :=
  { rootTypenamesById := fun d => if d = "ROOT_QUERY" then some "Query" else none,
    identify := fun r _ _ =>
      match jlookupObj r "id", getTypenameFromResult r with
      | some (.str i), some t => some (t ++ ":" ++ i)
      | _, _ => none,
    getStoreFieldName := fun _ s _ => resultKeyOf s,
    hasMergeFunction := fun _ _ => false,
    fragmentMatches := fun f tn =>
      match f.typeCondition, tn with
      | some tc, some t => tc = t
      | _, _ => true,
    applyMerges := fun _ o _ => o,
    usingPossibleTypes := false }

/-- `samplePolicies` with schema-based (possible-types) strict typing on. -/
def strictPolicies : Policies :=
  { samplePolicies with usingPossibleTypes := true }

/-- An empty entity store. -/
def emptyStore : EntityStoreM := { data := [], rootIds := [] }

/-- A write context over the empty store with one (dataId, selection set)
pair already recorded as written. -/
def ctxWithWritten : WriteContext :=
  { store := emptyStore, written := [("Author:5", [[]])], fragmentMap := [],
    vars := [] }

/-- A fresh write context over the empty store. -/
def freshCtx : WriteContext :=
  { store := emptyStore, written := [], fragmentMap := [], vars := [] }

/-- A concrete Query Manager configuration whose differ finds nothing
missing. -/
def sampleCfg : QMConfig :=
  { printDoc := fun _ => "query q",
    diff := fun _ _ _ _ _ =>
      { missingSelectionSets := [],
        result := JValue.obj [("author", JValue.str "cached")] },
    queryDocument := fun _ qd _ => { queryDef := some qd, fragmentDefs := [] },
    queryTransformer := none }

/-- A one-field document used by the witnesses. -/
def sampleDoc : Document :=
  { queryDef := some
      { opName := some "q",
        selectionSet := [Selection.field none "author" [] [] none] },
    fragmentDefs := [] }

/-- A concrete Query Manager state: one outstanding fetch promise for query
id "q1" (handle 7), one listener, and two observable queries of which "b" is
`noFetch`. -/
def qmSt0 : QMState :=
  { idCounter := 5, fetchQueryPromises := [("q1", 7)], queryListeners := ["q1"],
    pollingTimers := [], observableQueries := [("a", false), ("b", true)],
    promiseCounter := 0,
    apollo := { data := [("ROOT_QUERY", [("author", StoreValue.ref "Author:5")])],
                queries := [] } }

/-!
## Claims
-/

/-- C2: within a single write pass, processing the same (dataId, selection
set) pair a second time is a no-op beyond the first: the repeated call
returns a `Reference` to that dataId and leaves the write context (store and
written table) and the out-flag unchanged. -/
theorem c2_repeated_write_noop (p : Policies) (fuel : Nat) (d : String)
    (result : JValue) (ss : SelectionSet) (tn : Option String)
    (ctx : WriteContext) (out : Bool)
    (h : selsMember (writtenSets ctx.written d) ss = true) :
    processSelectionSet p (fuel + 1) (some d) result ss tn ctx out =
      .ok (.ref d, ctx, out) := by
  simp [processSelectionSet, h]

/-- C2 witness: the pair ("Author:5", empty selection set) is already in the
written table, so reprocessing it returns a bare reference and the untouched
context. -/
theorem c2_repeated_write_noop_witness :
    selsMember (writtenSets ctxWithWritten.written "Author:5") [] = true ∧
    processSelectionSet samplePolicies 1 (some "Author:5") JValue.null []
      none ctxWithWritten false = .ok (.ref "Author:5", ctxWithWritten, false) :=
  ⟨by decide, c2_repeated_write_noop samplePolicies 0 "Author:5" JValue.null []
    none ctxWithWritten false (by decide)⟩

/-- C9: `QueryManager.query` throws the usage error synchronously whenever
`returnPartialData` is set, for every query document. -/
theorem c9_query_rejects_partial (options : WatchQueryOptions)
    (h : options.returnPartialData = true) :
    qmQuery options =
      .error (.usageError "returnPartialData option only supported on watchQuery.") := by
  simp [qmQuery, h]

/-- C9 witness: even for a document with no query definition, `query` with
`returnPartialData` fails with the usage error. -/
theorem c9_query_rejects_partial_witness :
    ({ query := { queryDef := none, fragmentDefs := [] },
       returnPartialData := true } : WatchQueryOptions).returnPartialData = true ∧
    qmQuery { query := { queryDef := none, fragmentDefs := [] },
              returnPartialData := true } =
      .error (.usageError "returnPartialData option only supported on watchQuery.") :=
  ⟨rfl, c9_query_rejects_partial _ rfl⟩

/-- The read context used by the fragment-matcher counterexamples: the store
holds one object at "x" whose `__typename` is "Author". -/
def c7Ctx : ReadStoreContext :=
  { store := [("x", [("__typename", JValue.str "Author")])],
    returnPartialData := false }

/-- C7 counterexample: the stored object at "x" carries the discriminator
`__typename = "Author"`, yet the heuristic matcher returns true for the
different type condition "Person" (marking the read partial), so with a
discriminator present it does not match only on exact type equality. -/
theorem c7_heuristic_mismatch_counterexample :
    (c7Ctx.store.lookup "x").isSome = true ∧
    (heuristicMatch { id := "x" } "Person" c7Ctx).1 = true ∧
    ¬ ("Author" = "Person") := by
  refine ⟨rfl, rfl, by decide⟩

/-- C7 as amended: when the stored object carries a truthy `__typename`
discriminator, the heuristic matcher always returns true; it leaves the
context untouched exactly on exact type equality, and on a mismatch it
returns true while setting `returnPartialData`. -/
theorem c7_heuristic_match_amended (idv : IdValue) (tc tn : String)
    (ctx : ReadStoreContext) (obj : List (String × JValue))
    (hobj : ctx.store.lookup idv.id = some obj)
    (htn : obj.lookup "__typename" = some (JValue.str tn))
    (hne : tn ≠ "") :
    heuristicMatch idv tc ctx =
      (if tn = tc then (true, ctx)
       else (true, { ctx with returnPartialData := true })) := by
  simp [heuristicMatch, hobj, htn, jsTruthy, hne]

/-- C7 witness: exact equality leaves the context untouched; the mismatch
case is the counterexample's configuration. -/
theorem c7_heuristic_match_amended_witness :
    c7Ctx.store.lookup "x" = some [("__typename", JValue.str "Author")] ∧
    heuristicMatch { id := "x" } "Author" c7Ctx = (true, c7Ctx) :=
  ⟨rfl, by
    have h := c7_heuristic_match_amended { id := "x" } "Author" "Author" c7Ctx
      [("__typename", JValue.str "Author")] rfl rfl (by decide)
    simpa using h⟩

/-- The uninitialized introspection matcher used by the C10 counterexample. -/
def c10Matcher : IntrospectionFragmentMatcher :=
  { isReady := false, possibleTypesMap := [] }

/-- The empty read context used by the C10 counterexample. -/
def c10Ctx : ReadStoreContext := { store := [], returnPartialData := false }

/-- C10 counterexample: for an uninitialized introspection matcher, `match`
on a dataId with no store entry throws the not-ready error instead of
returning false. -/
theorem c10_introspection_uninitialized_counterexample :
    c10Ctx.store.lookup "missing" = none ∧
    introspectionMatch c10Matcher { id := "missing" } "T" c10Ctx =
      .error "FragmentMatcher.match was called before FragmentMatcher.init" :=
  ⟨rfl, rfl⟩

/-- C10 as amended: when the dataId has no entry in the store, the heuristic
matcher returns false (and never throws, being total), and the
schema-driven matcher returns false without throwing provided it has been
initialized, for every type condition. -/
theorem c10_missing_entry_matchers_amended (idv : IdValue) (tc : String)
    (ctx : ReadStoreContext) (h : ctx.store.lookup idv.id = none) :
    heuristicMatch idv tc ctx = (false, ctx) ∧
    (∀ m : IntrospectionFragmentMatcher, m.isReady = true →
      introspectionMatch m idv tc ctx = .ok false) := by
  constructor
  · simp [heuristicMatch, h]
  · intro m hm
    simp [introspectionMatch, hm, h]

/-- C10 witness: on the empty store both matchers (the introspection one
initialized) return false for dataId "missing". -/
theorem c10_missing_entry_matchers_amended_witness :
    c10Ctx.store.lookup "missing" = none ∧
    heuristicMatch { id := "missing" } "T" c10Ctx = (false, c10Ctx) ∧
    introspectionMatch { isReady := true, possibleTypesMap := [] }
      { id := "missing" } "T" c10Ctx = .ok false := by
  have h := c10_missing_entry_matchers_amended { id := "missing" } "T" c10Ctx rfl
  exact ⟨rfl, h.1, h.2 { isReady := true, possibleTypesMap := [] } rfl⟩

/-- C4: `resetStore` rejects every promise recorded in the pre-reset
fetch-promise table with the store-reset error, and all these rejections
occur before the store-clearing `APOLLO_STORE_RESET` dispatch, which is the
final effect. -/
theorem c4_reset_rejects_inflight (st : QMState) :
    ∃ pre, (resetStore st).2 = pre ++ [Effect.dispatch ApolloAction.storeReset] ∧
      ∀ qp ∈ st.fetchQueryPromises,
        Effect.rejectPromise qp.2 storeResetErrorMessage ∈ pre := by
  refine ⟨st.fetchQueryPromises.map
      (fun kp => Effect.rejectPromise kp.2 storeResetErrorMessage) ++
    st.queryListeners.map
      (fun qid => Effect.dispatch (ApolloAction.queryStop qid)), ?_, ?_⟩
  · simp [resetStore]
  · intro qp hqp
    exact List.mem_append_left _
      (List.mem_map_of_mem (fun kp => Effect.rejectPromise kp.2 storeResetErrorMessage) hqp)

/-- C4 witness: in `qmSt0` the outstanding promise handle 7 for query "q1"
is rejected with the store-reset error before the reset dispatch. -/
theorem c4_reset_rejects_inflight_witness :
    (("q1", 7) ∈ qmSt0.fetchQueryPromises) ∧
    (∃ pre, (resetStore qmSt0).2 = pre ++ [Effect.dispatch ApolloAction.storeReset] ∧
      ∀ qp ∈ qmSt0.fetchQueryPromises,
        Effect.rejectPromise qp.2 storeResetErrorMessage ∈ pre) :=
  ⟨by simp [qmSt0], c4_reset_rejects_inflight qmSt0⟩

/-- C5 (spec-modelled): after the reset, every registered observable query
that is not `noFetch` receives a refetch positioned after the store-clearing
dispatch, and (when query ids are unique, as in the keyed registry) a
`noFetch` query receives no refetch at all. -/
theorem c5_reset_refetch_policy (st : QMState) (qid : String) :
    ∃ pre post,
      (resetStoreWithRefetch st).2 =
        pre ++ Effect.dispatch ApolloAction.storeReset :: post ∧
      ((qid, false) ∈ st.observableQueries → Effect.refetchQuery qid ∈ post) ∧
      ((st.observableQueries.map Prod.fst).Nodup →
        (qid, true) ∈ st.observableQueries →
        Effect.refetchQuery qid ∉ (resetStoreWithRefetch st).2) := by
  refine ⟨st.fetchQueryPromises.map
      (fun kp : String × Nat => Effect.rejectPromise kp.2 storeResetErrorMessage),
    (st.observableQueries.filter (fun oq : String × Bool => !oq.2)).map
      (fun oq : String × Bool => Effect.refetchQuery oq.1), ?_, ?_, ?_⟩
  · simp [resetStoreWithRefetch]
  · intro hmem
    have hfil : ((qid, false) : String × Bool) ∈
        st.observableQueries.filter (fun oq : String × Bool => !oq.2) :=
      List.mem_filter.mpr ⟨hmem, rfl⟩
    exact List.mem_map_of_mem
      (fun oq : String × Bool => Effect.refetchQuery oq.1) hfil
  · intro hnodup hmem hcontra
    simp only [resetStoreWithRefetch, List.mem_append, List.mem_cons] at hcontra
    rcases hcontra with (h | h) | h
    · rcases List.mem_map.mp h with ⟨kp, _, he⟩
      cases he
    · rcases h with h | h
      · cases h
      · cases h
    · rcases List.mem_map.mp h with ⟨oq, hoq, he⟩
      have hkey : oq.1 = qid := by
        cases he
        rfl
      have hfil := List.mem_filter.mp hoq
      have hoqm : (qid, oq.2) ∈ st.observableQueries := by
        have : oq = (qid, oq.2) := by
          cases oq
          simp at hkey
          simp [hkey]
        rw [← this]
        exact hfil.1
      have : oq.2 = true :=
        keysNodup_unique st.observableQueries hnodup qid oq.2 true hoqm hmem
      rw [this] at hfil
      simp at hfil

/-- C5 witness: in `qmSt0` the fetching query "a" is refetched after the
reset dispatch, and the `noFetch` query "b" is never refetched. -/
theorem c5_reset_refetch_policy_witness :
    (("a", false) ∈ qmSt0.observableQueries ∧
      ("b", true) ∈ qmSt0.observableQueries ∧
      (qmSt0.observableQueries.map Prod.fst).Nodup) ∧
    (∃ pre post,
      (resetStoreWithRefetch qmSt0).2 =
        pre ++ Effect.dispatch ApolloAction.storeReset :: post ∧
      ((("b", false) : String × Bool) ∈ qmSt0.observableQueries →
        Effect.refetchQuery "b" ∈ post) ∧
      ((qmSt0.observableQueries.map Prod.fst).Nodup →
        (("b", true) : String × Bool) ∈ qmSt0.observableQueries →
        Effect.refetchQuery "b" ∉ (resetStoreWithRefetch qmSt0).2)) :=
  ⟨⟨by simp [qmSt0], by simp [qmSt0], by simp [qmSt0]⟩,
   c5_reset_refetch_policy qmSt0 "b"⟩

/-- The bookkeeping record used by the C6 witness: latest request id 2. -/
def bk0 : QueryBookkeeping :=
  { queryString := "query q", loading := true, lastRequestId := 2, vars := [],
    networkError := none, graphQLErrors := none, returnPartialData := false,
    forceFetch := false, lastResult := none, complete := false }

/-- The apollo state used by the C6 witness. -/
def ap0 : ApolloState :=
  { data := [("ROOT_QUERY", [("author", StoreValue.ref "Author:5")])],
    queries := [("q0", bk0)] }

/-- C6: request ids issued from the shared counter along any trace are
strictly monotonically increasing, and a result whose request id is not the
latest issued for its query id is discarded (the bookkeeping is left
unchanged, so nothing new is delivered to listeners) while the result
carrying the latest request id is recorded and delivered. -/
theorem c6_request_ids_and_staleness :
    (∀ (st : QMState) (ops : List IdOp),
      List.Pairwise (· < ·) (runIdOps st ops).1) ∧
    (∀ (writeFn : List (String × StoreObject) → JValue → List (String × StoreObject))
       (ap : ApolloState) (qid : String) (bk : QueryBookkeeping)
       (rid1 rid2 : Nat) (res : JValue) (gql : Option (List String)),
       ap.queries.lookup qid = some bk →
       bk.lastRequestId = rid2 →
       rid1 ≠ rid2 →
       (apolloReducer writeFn ap (.queryResult qid rid1 res gql) = ap ∧
        (apolloReducer writeFn ap (.queryResult qid rid2 res gql)).queries.lookup qid =
          some { bk with loading := false, networkError := none, graphQLErrors := gql, lastResult := some res })) := by
  constructor
  · intro st ops
    induction ops generalizing st with
    | nil => simp [runIdOps]
    | cons op rest ih =>
        cases op with
        | genQuery => simpa [runIdOps] using ih (generateQueryId st).2
        | genRequest =>
            simp only [runIdOps]
            refine List.pairwise_cons.mpr ⟨?_, ih (generateRequestId st).2⟩
            intro r hr
            have hge := runIdOps_issued_ge rest (generateRequestId st).2 r hr
            simp [generateRequestId] at hge ⊢
            omega
  · intro writeFn ap qid bk rid1 rid2 res gql hlk hlast hne
    have hne2 : ¬ (rid2 = rid1) := fun e => hne e.symm
    constructor
    · simp [apolloReducer, hlk, hlast, hne2]
    · simp [apolloReducer, hlk, hlast, lookup_setAssoc_self]

/-- C6 witness: along the trace request-query-request the issued request ids
are strictly increasing, and for query "q0" whose latest request id is 2,
the stale result carrying request id 1 is discarded while the result
carrying request id 2 is recorded. -/
theorem c6_request_ids_and_staleness_witness :
    ap0.queries.lookup "q0" = some bk0 ∧
    bk0.lastRequestId = 2 ∧ (1 : Nat) ≠ 2 ∧
    List.Pairwise (· < ·)
      (runIdOps qmSt0 [IdOp.genRequest, IdOp.genQuery, IdOp.genRequest]).1 ∧
    (apolloReducer (fun d _ => d) ap0
        (ApolloAction.queryResult "q0" 1 JValue.null none) = ap0 ∧
      (apolloReducer (fun d _ => d) ap0
          (ApolloAction.queryResult "q0" 2 JValue.null none)).queries.lookup "q0" =
        some { bk0 with loading := false, networkError := none, graphQLErrors := none, lastResult := some JValue.null }) :=
  ⟨rfl, rfl, by decide,
   c6_request_ids_and_staleness.1 qmSt0 [IdOp.genRequest, IdOp.genQuery, IdOp.genRequest],
   c6_request_ids_and_staleness.2 (fun d _ => d) ap0 "q0" bk0 1 2 JValue.null none
     rfl rfl (by decide)⟩

/-- C3: on a failed fetch the error path dispatches only the
`APOLLO_QUERY_ERROR` bookkeeping action and drops the promise-table entry;
running that action (or a result carrying GraphQL errors) through the
reducer records the error in the query's bookkeeping and leaves the `data`
portion — the cached entity data of every root — unchanged; the updated
bookkeeping makes the query listener call `observer.error`, which rejects
the caller's result promise with that error. -/
theorem c3_failed_fetch_preserves_data
    (writeFn : List (String × StoreObject) → JValue → List (String × StoreObject))
    (st : QMState) (qid : String) (rid : Nat) (err : String)
    (bk : QueryBookkeeping) (readResult : Option JValue) (res : JValue)
    (errs : List String)
    (hlk : st.apollo.queries.lookup qid = some bk)
    (hlast : bk.lastRequestId = rid)
    (hgql : bk.graphQLErrors = none) :
    ((fetchErrorPath st qid rid err).2 =
        [Effect.dispatch (ApolloAction.queryError qid rid err)]) ∧
    ((apolloReducer writeFn st.apollo (.queryError qid rid err)).data =
        st.apollo.data) ∧
    ((apolloReducer writeFn st.apollo (.queryError qid rid err)).queries.lookup qid =
        some { bk with loading := false, networkError := some err }) ∧
    ((apolloReducer writeFn st.apollo (.queryResult qid rid res (some errs))).data =
        st.apollo.data) ∧
    (watchQueryListener readResult { bk with loading := false, networkError := some err } =
        .errorCall err) ∧
    (resultPromiseOutcome
        [watchQueryListener readResult { bk with loading := false, networkError := some err }] =
        some (.error err)) ∧
    ((fetchErrorPath st qid rid err).1.fetchQueryPromises =
        removeAssoc st.fetchQueryPromises qid) := by
  refine ⟨rfl, ?_, ?_, ?_, ?_, ?_, rfl⟩
  · simp [apolloReducer, hlk, hlast]
  · simp [apolloReducer, hlk, hlast, lookup_setAssoc_self]
  · simp [apolloReducer, hlk, hlast]
  · simp [watchQueryListener, hgql]
  · simp [resultPromiseOutcome, watchQueryListener, hgql]

/-- C3 witness: for query "q0" (latest request id 2) a network error "boom"
is recorded without touching the cached data, and the listener rejects the
result promise with it. -/
theorem c3_failed_fetch_preserves_data_witness :
    (ap0.queries.lookup "q0" = some bk0 ∧ bk0.lastRequestId = 2 ∧
      bk0.graphQLErrors = none) ∧
    (((fetchErrorPath { qmSt0 with apollo := ap0 } "q0" 2 "boom").2 =
        [Effect.dispatch (ApolloAction.queryError "q0" 2 "boom")]) ∧
      ((apolloReducer (fun d _ => d) ap0 (.queryError "q0" 2 "boom")).data =
        ap0.data) ∧
      ((apolloReducer (fun d _ => d) ap0 (.queryError "q0" 2 "boom")).queries.lookup "q0" =
        some { bk0 with loading := false, networkError := some "boom" }) ∧
      ((apolloReducer (fun d _ => d) ap0
          (.queryResult "q0" 2 JValue.null (some ["gql error"]))).data = ap0.data) ∧
      (watchQueryListener none { bk0 with loading := false, networkError := some "boom" } =
        .errorCall "boom") ∧
      (resultPromiseOutcome
          [watchQueryListener none { bk0 with loading := false, networkError := some "boom" }] =
        some (.error "boom")) ∧
      ((fetchErrorPath { qmSt0 with apollo := ap0 } "q0" 2 "boom").1.fetchQueryPromises =
        removeAssoc ({ qmSt0 with apollo := ap0 } : QMState).fetchQueryPromises "q0")) :=
  ⟨⟨rfl, rfl, rfl⟩,
   c3_failed_fetch_preserves_data (fun d _ => d) { qmSt0 with apollo := ap0 }
     "q0" 2 "boom" bk0 none JValue.null ["gql error"] rfl rfl rfl⟩

/-- C1: a fetch without `forceFetch` whose diff against the store finds no
missing selection sets issues no network request (the effects are just the
two bookkeeping dispatches, with no `enqueueRequest`), registers no fetch
promise, and its promise is resolved immediately with the cached result
assembled by the diff. -/
theorem c1_cached_fetch_no_network (cfg : QMConfig) (st : QMState)
    (queryId : String) (options : WatchQueryOptions) (qd : OpDef) (dr : DiffResult)
    (hff : options.forceFetch = false)
    (hqd : getQueryDefinition options.query = .ok qd)
    (hdr : cfg.diff (qmTransform cfg qd).selectionSet st.apollo.data options.vars
      (createFragmentMap options.query.fragmentDefs) "ROOT_QUERY" = dr)
    (hmiss : dr.missingSelectionSets = []) :
    ∃ initA clientA : ApolloAction,
      fetchQueryOverInterface cfg st queryId options =
        .ok (.resolvedData (some dr.result),
             { st with idCounter := st.idCounter + 1 },
             [Effect.dispatch initA, Effect.dispatch clientA]) ∧
      (∀ (s : String) (opn : Option String),
        Effect.enqueueRequest s opn ∉ [Effect.dispatch initA, Effect.dispatch clientA]) ∧
      ({ st with idCounter := st.idCounter + 1 } : QMState).fetchQueryPromises =
        st.fetchQueryPromises := by
  subst hdr
  refine ⟨ApolloAction.queryInit queryId st.idCounter
      (cfg.printDoc { queryDef := some (qmTransform cfg qd),
                      fragmentDefs := options.query.fragmentDefs })
      none options.vars false options.returnPartialData,
    ApolloAction.queryResultClient queryId
      (some (cfg.diff (qmTransform cfg qd).selectionSet st.apollo.data options.vars
        (createFragmentMap options.query.fragmentDefs) "ROOT_QUERY").result) false,
    ?_, ?_, rfl⟩
  · simp [fetchQueryOverInterface, hqd, hff, hmiss, generateRequestId]
  · intro s opn
    simp

/-- The options used by the C1 witness: the sample one-field document,
no `forceFetch`. -/
def c1Options : WatchQueryOptions := { query := sampleDoc }

/-- The diff result the sample configuration produces for the C1 witness. -/
def c1Diff : DiffResult :=
  { missingSelectionSets := [],
    result := JValue.obj [("author", JValue.str "cached")] }

/-- C1 witness: with the sample differ finding nothing missing, the fetch
resolves immediately with the cached result, the two dispatched bookkeeping
actions are the only effects, no network request is enqueued and no fetch
promise is registered. -/
theorem c1_cached_fetch_no_network_witness :
    (c1Options.forceFetch = false ∧
      getQueryDefinition c1Options.query =
        .ok { opName := some "q",
              selectionSet := [Selection.field none "author" [] [] none] } ∧
      sampleCfg.diff
        (qmTransform sampleCfg
          { opName := some "q",
            selectionSet := [Selection.field none "author" [] [] none] }).selectionSet
        qmSt0.apollo.data c1Options.vars
        (createFragmentMap c1Options.query.fragmentDefs) "ROOT_QUERY" = c1Diff ∧
      c1Diff.missingSelectionSets = []) ∧
    (∃ initA clientA : ApolloAction,
      fetchQueryOverInterface sampleCfg qmSt0 "qid1" c1Options =
        .ok (.resolvedData (some c1Diff.result),
             { qmSt0 with idCounter := qmSt0.idCounter + 1 },
             [Effect.dispatch initA, Effect.dispatch clientA]) ∧
      (∀ (s : String) (opn : Option String),
        Effect.enqueueRequest s opn ∉ [Effect.dispatch initA, Effect.dispatch clientA]) ∧
      ({ qmSt0 with idCounter := qmSt0.idCounter + 1 } : QMState).fetchQueryPromises =
        qmSt0.fetchQueryPromises) :=
  ⟨⟨rfl, rfl, rfl, rfl⟩,
   c1_cached_fetch_no_network sampleCfg qmSt0 "qid1" c1Options
     { opName := some "q",
       selectionSet := [Selection.field none "author" [] [] none] }
     c1Diff rfl rfl rfl rfl⟩

/-- C8: during a write, when a selected field is absent from the result
object, processing throws the hard missing-field `InvariantError` under
strict possible-types-based typing (and no explaining directive), while a
`@defer` / `@client` directive on the field makes the absence silently
skipped: the write completes, storing only the entity's typename and writing
no field. -/
theorem c8_missing_field_policy :
    (∀ (p : Policies) (n : Nat) (d : String) (result : JValue)
       (al : Option String) (nm : String) (args : List (String × JValue))
       (dirs : List Directive) (sub : Option (List Selection))
       (tn0 : Option String) (ctx : WriteContext),
       jlookupObj result (resultKeyOf (Selection.field al nm args dirs sub)) = none →
       shouldInclude (Selection.field al nm args dirs sub) ctx.vars = true →
       selsMember (writtenSets ctx.written d) [Selection.field al nm args dirs sub] = false →
       p.usingPossibleTypes = true →
       hasDirectives ["defer", "client"] (Selection.field al nm args dirs sub) = false →
       processSelectionSet p (n + 1 + 1 + 1) (some d) result
         [Selection.field al nm args dirs sub] tn0 ctx false =
         .error (.invariant ("Missing field " ++
           resultKeyOf (Selection.field al nm args dirs sub)))) ∧
    (∀ (p : Policies) (n : Nat) (d : String) (result : JValue)
       (al : Option String) (nm : String) (args : List (String × JValue))
       (dirs : List Directive) (sub : Option (List Selection))
       (t : String) (ctx : WriteContext),
       jlookupObj result (resultKeyOf (Selection.field al nm args dirs sub)) = none →
       shouldInclude (Selection.field al nm args dirs sub) ctx.vars = true →
       selsMember (writtenSets ctx.written d) [Selection.field al nm args dirs sub] = false →
       hasDirectives ["defer", "client"] (Selection.field al nm args dirs sub) = true →
       t ≠ "" →
       processSelectionSet p (n + 1 + 1 + 1 + 1) (some d) result
         [Selection.field al nm args dirs sub] (some t) ctx false =
         .ok (.ref d,
           { ctx with
             written := writtenPush ctx.written d [Selection.field al nm args dirs sub],
             store := storeMergeObj ctx.store d
               [("__typename", StoreValue.scalar (JValue.str t))] },
           false)) := by
  constructor
  · intro p n d result al nm args dirs sub tn0 ctx hmissing hincl hnew hstrict hdirs
    simp [processSelectionSet, processAfterGuard, processWorkList, dedupSels,
      hmissing, hincl, hnew, hstrict, hdirs]
  · intro p n d result al nm args dirs sub t ctx hmissing hincl hnew hdirs ht
    simp [processSelectionSet, processAfterGuard, processWorkList, dedupSels,
      jsStrOr, hmissing, hincl, hnew, hdirs, ht]

/-- A field with no directives, used by the C8 witness. -/
def plainField : Selection := Selection.field none "name" [] [] none

/-- The same field carrying a `@defer` directive, used by the C8 witness. -/
def deferField : Selection :=
  Selection.field none "name" [] [{ name := "defer", ifArg := none }] none

/-- C8 witness: against the empty result object, the plain field errors under
strict typing while the `@defer` field is skipped, leaving only the typename
write. -/
theorem c8_missing_field_policy_witness :
    (jlookupObj (JValue.obj []) (resultKeyOf plainField) = none ∧
      shouldInclude plainField freshCtx.vars = true ∧
      selsMember (writtenSets freshCtx.written "d") [plainField] = false ∧
      strictPolicies.usingPossibleTypes = true ∧
      hasDirectives ["defer", "client"] plainField = false ∧
      jlookupObj (JValue.obj []) (resultKeyOf deferField) = none ∧
      shouldInclude deferField freshCtx.vars = true ∧
      selsMember (writtenSets freshCtx.written "d") [deferField] = false ∧
      hasDirectives ["defer", "client"] deferField = true ∧
      ("T" : String) ≠ "") ∧
    processSelectionSet strictPolicies (0 + 1 + 1 + 1) (some "d") (JValue.obj [])
      [plainField] none freshCtx false =
      .error (.invariant ("Missing field " ++ resultKeyOf plainField)) ∧
    processSelectionSet strictPolicies (0 + 1 + 1 + 1 + 1) (some "d") (JValue.obj [])
      [deferField] (some "T") freshCtx false =
      .ok (.ref "d",
        { freshCtx with
          written := writtenPush freshCtx.written "d" [deferField],
          store := storeMergeObj freshCtx.store "d"
            [("__typename", StoreValue.scalar (JValue.str "T"))] },
        false) :=
  ⟨⟨rfl, rfl, rfl, rfl, rfl, rfl, rfl, rfl, rfl, by decide⟩,
   c8_missing_field_policy.1 strictPolicies 0 "d" (JValue.obj []) none "name"
     [] [] none none freshCtx rfl rfl rfl rfl rfl,
   c8_missing_field_policy.2 strictPolicies 0 "d" (JValue.obj []) none "name"
     [] [{ name := "defer", ifArg := none }] none "T" freshCtx rfl rfl rfl rfl
     (by decide)⟩
